import Mathlib

/-!
Verification development for the eurlex-toolbox repository.

Shallow embedding of the data model and operations of the repository:
date normalization of `EurLexDataFile` (src/eurlex_doc.py), the streaming
metadata state machine of `EurLexMetaFile` (src/eurlex_doc.py), the
classifiers `is_dec` and `is_cfsp` (src/eurlex_doc.py, src/eurlex_ds.py),
the gazetteer matcher (src/parsing/location_parser.py), and the corpus
assembly loop of `EurLexDataset.__init__` (src/eurlex_ds.py).

File I/O is modelled by an abstract file system `String → Option String`
mapping a path to its content when the path exists.  Python exceptions are
modelled with `Except String`.
-/

/-! Basic list and string helpers -/

/-- Case-sensitive substring test on character lists, modelling the Python
membership test `needle in hay` on strings. -/
def containsSubL (nd : List Char) : List Char → Bool
  | [] => nd.isEmpty
  | c :: t => nd.isPrefixOf (c :: t) || containsSubL nd t

/-- Lowercasing of a string, modelling Python `str.lower` on the ASCII
range (as used by `EurLexItem.is_cfsp`). -/
def lowerStr (s : String) : String := ⟨s.data.map Char.toLower⟩

/-! Date normalization (src/eurlex_doc.py, EurLexDataFile.__init__).

The code runs `datetime.strptime(d, '%Y%m%d').strftime('%Y/%m/%d')` on every
date string of the document.  CPython compiles the format `%Y%m%d` to the
regular expression `(\d\d\d\d)(1[0-2]|0[1-9]|[1-9])(3[01]|[12]\d|0[1-9]|[1-9])`
matched with backtracking against the whole string, and then validates the
resulting calendar date.  The candidate lists below reproduce the
alternation order of those groups, and `parseYmd` reproduces the
backtracking search and the calendar validation of `datetime`. -/

/-- Numeric value of a digit character. -/
def dval (c : Char) : Nat := c.toNat - 48

/-- Candidate parses of the `%m` group of CPython strptime, in the
alternation order `1[0-2]|0[1-9]|[1-9]`, each with the remaining input. -/
def monthCands : List Char → List (Nat × List Char)
  | c1 :: c2 :: rest =>
    (if c1 == '1' && (c2 == '0' || c2 == '1' || c2 == '2') then [(10 + dval c2, rest)] else []) ++
    (if c1 == '0' && c2.isDigit && c2 != '0' then [(dval c2, rest)] else []) ++
    (if c1.isDigit && c1 != '0' then [(dval c1, c2 :: rest)] else [])
  | [c1] => if c1.isDigit && c1 != '0' then [(dval c1, [])] else []
  | [] => []

/-- Candidate parses of the `%d` group of CPython strptime, in the
alternation order `3[01]|[12]\d|0[1-9]|[1-9]`. -/
def dayCands : List Char → List (Nat × List Char)
  | c1 :: c2 :: rest =>
    (if c1 == '3' && (c2 == '0' || c2 == '1') then [(30 + dval c2, rest)] else []) ++
    (if (c1 == '1' || c1 == '2') && c2.isDigit then [(10 * dval c1 + dval c2, rest)] else []) ++
    (if c1 == '0' && c2.isDigit && c2 != '0' then [(dval c2, rest)] else []) ++
    (if c1.isDigit && c1 != '0' then [(dval c1, c2 :: rest)] else [])
  | [c1] => if c1.isDigit && c1 != '0' then [(dval c1, [])] else []
  | [] => []

/-- Gregorian leap-year rule used by `datetime`. -/
def isLeap (y : Nat) : Bool := (y % 4 == 0 && y % 100 != 0) || y % 400 == 0

/-- Number of days of month `m` of year `y`, as validated by `datetime`. -/
def daysInMonth (y m : Nat) : Nat :=
  if m == 2 then (if isLeap y then 29 else 28)
  else if m == 4 || m == 6 || m == 9 || m == 11 then 30 else 31

/-- Model of `datetime.strptime(s, '%Y%m%d')`: four digits of year, then
the backtracking month/day search consuming the whole string, then calendar
validation (`datetime` accepts years 1..9999). -/
def parseYmd (s : String) : Option (Nat × Nat × Nat) :=
  match s.data with
  | a :: b :: c :: d :: rest =>
    if a.isDigit && b.isDigit && c.isDigit && d.isDigit then
      let y := ((dval a * 10 + dval b) * 10 + dval c) * 10 + dval d
      match (monthCands rest).findSome? (fun mc =>
        (dayCands mc.2).findSome? (fun dc =>
          if dc.2.isEmpty then some (mc.1, dc.1) else none)) with
      | some (m, dd) =>
        if 1 ≤ y ∧ dd ≤ daysInMonth y m then some (y, m, dd) else none
      | none => none
    else none
  | _ => none

/-- Zero-padding to two digits, as produced by strftime `%m` and `%d`. -/
def pad2 (n : Nat) : String := if n < 10 then "0" ++ toString n else toString n

/-- Model of one date normalization step of `EurLexDataFile.__init__`:
`datetime.strptime(d, '%Y%m%d').strftime('%Y/%m/%d')`, returning `none`
where the Python code raises `ValueError`. -/
def normDate (s : String) : Option String :=
  (parseYmd s).map (fun t => toString t.1 ++ "/" ++ pad2 t.2.1 ++ "/" ++ pad2 t.2.2)

/-- Normalization of the whole date list: the Python list comprehension
succeeds on every element or raises at the first failing one. -/
def traverseDates : List String → Option (List String)
  | [] => some []
  | d :: ds =>
    match normDate d, traverseDates ds with
    | some s, some r => some (s :: r)
    | _, _ => none

/-- The `try/except ValueError` of `EurLexDataFile.__init__`: on success the
list is replaced by the normalized one, on any failure by `['None']`. -/
def normalizeDates (ds : List String) : List String := (traverseDates ds).getD ["None"]

/-! Metadata state machine (src/eurlex_doc.py, EurLexMetaFile.__init__). -/

/-- One iterparse event.  `enter` carries the text accumulated by
`elem.itertext()` for the `TITLE` branch, `exit` carries `elem.text` and
the `FILE` attribute of the element when present. -/
inductive MetaEvent
  | enter (tag : String) (titleText : String)
  | exit (tag : String) (text : Option String) (fileAttr : Option String)
deriving Repr, DecidableEq

/-- State of `EurLexMetaFile.__init__` during the iterparse loop: the
attributes of the object under construction plus the explicit `path`
stack (appended on start events, popped on end events). -/
structure MState where
  file_path : String
  file_name : String
  parent_dir : String
  authors : List String
  coll : Option String
  com : Option String
  legval : Option String
  title : String
  main_pub : Option String
  sub_pubs : List String
  path : List String
deriving Repr, DecidableEq

/-- Python `path[-2]`: second-to-last element, `IndexError` when the list
has fewer than two elements. -/
def pyAt2 (l : List String) : Except String String :=
  match l.reverse with
  | _ :: b :: _ => Except.ok b
  | _ => Except.error "IndexError"

/-- One iteration of the iterparse loop of `EurLexMetaFile.__init__`. -/
def metaStep (st : MState) : MetaEvent → Except String MState
  | MetaEvent.enter tag ttext =>
    let st1 := { st with path := st.path ++ [tag] }
    if tag == "TITLE" && st1.path.contains "PAPER" then
      Except.ok { st1 with title := st1.title ++ ttext }
    else Except.ok st1
  | MetaEvent.exit tag text fileAttr => do
    let st1 ←
      if tag == "AUTHOR" && text.isSome then
        Except.ok { st with authors := st.authors ++ [text.getD ""] }
      else if tag == "COM" then Except.ok { st with com := text }
      else if tag == "COLL" then Except.ok { st with coll := text }
      else if tag == "LEGAL.VALUE" then do
        let p ← pyAt2 st.path
        if p == "DOC.MAIN.PUB" then Except.ok { st with legval := text }
        else Except.ok st
      else if tag == "REF.PHYS" then do
        let p ← pyAt2 st.path
        if p == "DOC.MAIN.PUB" then
          match fileAttr with
          | some f => Except.ok { st with main_pub := some (st.parent_dir ++ "/" ++ f) }
          | none => Except.error "KeyError"
        else if p == "DOC.SUB.PUB" then
          match fileAttr with
          | some f => Except.ok { st with sub_pubs := st.sub_pubs ++ [st.parent_dir ++ "/" ++ f] }
          | none => Except.error "KeyError"
        else Except.ok st
      else Except.ok st
    Except.ok { st1 with path := st1.path.dropLast }

/-- Directory part of a path, modelling `Path.parent`. -/
def pathParentDir (p : String) : String :=
  String.intercalate "/" ((p.splitOn "/").dropLast)

/-- Final component of a path, modelling `Path.name`. -/
def pathFileName (p : String) : String :=
  ((p.splitOn "/").getLast?).getD ""

/-- Initial state of `EurLexMetaFile.__init__` before the iterparse loop. -/
def initMState (p : String) : MState :=
  { file_path := p
    file_name := pathFileName p
    parent_dir := pathParentDir p
    authors := [], coll := none, com := none, legval := none, title := ""
    main_pub := none, sub_pubs := [], path := [] }

/-- `EurLexFile.__init__`: raises `OSError` when the path does not exist. -/
def eurLexFileInit (fs : String → Option String) (p : String) : Except String Unit :=
  if (fs p).isSome then Except.ok () else Except.error ("File " ++ p ++ " does not exist.")

/-- `EurLexMetaFile.__init__`: the existence check of the base class,
then the iterparse loop.  `events` is the outcome of iterparse on the
file: a list of events, or a structural parse error on malformed markup. -/
def eurLexMetaFileInit (fs : String → Option String) (p : String)
    (events : Except String (List MetaEvent)) : Except String MState := do
  let _ ← eurLexFileInit fs p
  let evs ← events
  evs.foldlM metaStep (initMState p)

/-- Result attributes of a fully constructed `EurLexDataFile`. -/
structure DataRec where
  file_path : String
  text : String
  dates : List String
deriving Repr, DecidableEq

/-- `EurLexDataFile.__init__` on an existing, well-formed document with
extracted raw text `text` and raw date strings `dates`.  The `OSError` of
the base class is caught (`except OSError: print(...); return`): a missing
path yields `Except.ok none`, a constructed object with no data attributes,
rather than an error. -/
def eurLexDataFileInit (fs : String → Option String) (p : String)
    (text : String) (dates : List String) : Except String (Option DataRec) :=
  match eurLexFileInit fs p with
  | Except.error _ => Except.ok none
  | Except.ok _ =>
    Except.ok (some { file_path := p, text := text, dates := normalizeDates dates })

/-! Gazetteer (src/parsing/location_parser.py). -/

/-- Python dict insertion with overwrite, for the dict comprehension of
`read_geo_table`. -/
def upsert : List (String × List String) → String → List String → List (String × List String)
  | [], k, v => [(k, v)]
  | (k1, v1) :: t, k, v => if k1 == k then (k1, v) :: t else (k1, v1) :: upsert t k v

/-- `read_geo_table`: raises `OSError` on a missing table file, otherwise
splits lines, drops comment lines and empty lines, splits each row on the
separator dropping empty fields, and builds the dict keyed by the first
field (`IndexError` on a row with no fields). -/
def read_geo_table (fs : String → Option String) (p : String)
    (sep comment : String) : Except String (List (String × List String)) :=
  match fs p with
  | none => Except.error ("File " ++ p ++ " does not exist.")
  | some content =>
    let ls1 := (content.splitOn "\n").filter (fun l => !(l.startsWith comment))
    let ls2 := ls1.filter (fun l => l != "")
    let rows := ls2.map (fun l => (l.splitOn sep).filter (fun f => f != ""))
    rows.foldlM (fun acc row =>
      match row with
      | [] => Except.error "IndexError"
      | k :: vs => Except.ok (upsert acc k vs)) []

/-- Word character of the `\b` regex assertion (ASCII range). -/
def isWordChar (c : Char) : Bool := c.isAlphanum || c == '_'

/-- Whether position `i` of the text holds a word character. -/
def wordAt (txt : List Char) (i : Nat) : Bool :=
  match txt[i]? with
  | some c => isWordChar c
  | none => false

/-- The `\b` assertion between positions `i - 1` and `i`. -/
def boundaryAt (txt : List Char) (i : Nat) : Bool :=
  (if i == 0 then false else wordAt txt (i - 1)) != wordAt txt i

/-- Case-insensitive match of `pat` against the front of `hay`, the
semantics of matching a literal pattern under `re.IGNORECASE`. -/
def ciPrefixOf : List Char → List Char → Bool
  | [], _ => true
  | _ :: _, [] => false
  | a :: as, b :: bs => (a.toLower == b.toLower) && ciPrefixOf as bs

/-- Semantics of the override patterns of `GeoRegex._preprocess`: a plain
name, a negative lookbehind, or a negative lookahead. -/
inductive GeoConstraint
  | free
  | notPrecededBy (s : String)
  | notFollowedBy (s : String)
deriving Repr, DecidableEq

/-- The `conversion_dict` of `GeoRegex._preprocess`, with each override
pattern rendered as its lookaround constraint. -/
def geoConversion (name : String) : GeoConstraint :=
  if name == "Balkans" then GeoConstraint.notPrecededBy "Western "
  else if name == "Sudan" then GeoConstraint.notPrecededBy "South "
  else if name == "Mediterranean" then GeoConstraint.notPrecededBy "Southern "
  else if name == "Vatican" then GeoConstraint.notFollowedBy " City"
  else if name == "Czech" then GeoConstraint.notFollowedBy " Republic"
  else if name == "Swiss" then GeoConstraint.notFollowedBy " Confederation"
  else if name == "Palestinian" then GeoConstraint.notFollowedBy " Territor"
  else GeoConstraint.free

/-- A match of the compiled pattern of `GeoRegex` at position `i`:
the name matched case-insensitively, `\b` on both sides, and the curated
lookaround constraint satisfied. -/
def geoMatchAt (name : String) (txt : List Char) (i : Nat) : Bool :=
  ciPrefixOf name.data (txt.drop i) &&
  boundaryAt txt i && boundaryAt txt (i + name.data.length) &&
  (match geoConversion name with
   | GeoConstraint.free => true
   | GeoConstraint.notPrecededBy s =>
     !(decide (s.data.length ≤ i) && ciPrefixOf s.data (txt.drop (i - s.data.length)))
   | GeoConstraint.notFollowedBy s =>
     !(ciPrefixOf s.data (txt.drop (i + name.data.length))))

/-- Left-to-right non-overlapping scan of `finditer`: at a match the scan
resumes after the matched characters, otherwise it advances one position.
`fuel` bounds the recursion; `geoCount` supplies enough for the whole text. -/
def geoCountAux (name : String) (txt : List Char) : Nat → Nat → Nat
  | _, 0 => 0
  | i, fuel + 1 =>
    if txt.length < i then 0
    else if geoMatchAt name txt i then
      1 + geoCountAux name txt (i + max name.data.length 1) fuel
    else geoCountAux name txt (i + 1) fuel

/-- Number of matches found by `list(regex.finditer(text))` for one name. -/
def geoCount (name : String) (txt : List Char) : Nat :=
  geoCountAux name txt 0 (txt.length + 2)

/-- The flattening `[name for country in geo_dict.values() for name in country]`
of `LocationParser.__init__`. -/
def flattenVals : List (String × List String) → List String
  | [] => []
  | (_, vs) :: t => vs ++ flattenVals t

/-- `LocationParser.__call__`: one compiled matcher per distinct name
(`list(set(all_geo_names))`), and an entry `plain_name ↦ len(matches)` for
every name with at least one match. -/
def locCall (gd : List (String × List String)) (txt : List Char) : List (String × Nat) :=
  (flattenVals gd).dedup.filterMap (fun n =>
    if 0 < geoCount n txt then some (n, geoCount n txt) else none)

/-! Classifiers (src/eurlex_doc.py EurLexMetaFile.is_dec,
src/eurlex_ds.py EurLexItem.is_cfsp). -/

/-- The fixed decision-code set of `EurLexMetaFile.is_dec`. -/
def decCodes : List String :=
  ["DEC", "DEC.EEA", "DEC_IMPL", "DECIMP", "DEC_DEL", "DECDEL", "DECIMPL"]

/-- `EurLexMetaFile.is_dec`: membership of `self.legval` in the fixed set;
`None` is not an element of the set. -/
def is_dec (m : MState) : Bool :=
  match m.legval with
  | some v => decCodes.contains v
  | none => false

/-- The `manually_selected` set of `EurLexItem.is_cfsp`. -/
def manuallySelected : List String :=
  ["L_2009009EN.01005101.doc.xml", "L_2010201EN.01003001.doc.xml",
   "L_2014014EN.01000101.doc.xml", "L_2014205EN.01000201.doc.xml",
   "L_2016074EN.01000101.doc.xml", "L_2016300EN.01000101.doc.xml",
   "L_2017328EN.01003201.doc.xml"]

/-- The author set `{'PSC', 'EEAS', 'PESC'}` of `EurLexItem.is_cfsp`. -/
def cfspAuthors : List String := ["PSC", "EEAS", "PESC"]

/-- `EurLexItem.is_cfsp`, which reads only `self.meta`: the four flag
assignments of the source collapse to the disjunction of the four tests. -/
def is_cfsp (m : MState) : Bool :=
  manuallySelected.contains m.file_name ||
  containsSubL "cfsp".data (lowerStr m.title).data ||
  (m.com == some "CFSP") ||
  m.authors.any (fun a => cfspAuthors.contains a)

/-- `EurLexMetaFile.__str__`: joins path, authors joined by underscores,
the collection code as is, and the legal value with `"None"` substituted
when absent.  When `self.coll` is `None`, `','.join` raises `TypeError`. -/
def metaStr (m : MState) : Except String String :=
  let authorsStr := String.intercalate "_" m.authors
  let legvalStr := match m.legval with | some v => v | none => "None"
  match m.coll with
  | none => Except.error "TypeError"
  | some collStr =>
    Except.ok (String.intercalate "," [m.file_path, authorsStr, collStr, legvalStr])

/-! Corpus assembly (src/eurlex_ds.py, EurLexDataset.__init__). -/

/-- One element of the dataset: a metadata record and the main body
document (`sub_docs` is always `None` in the source and is omitted). -/
structure ELItem where
  meta : MState
  main_doc : Option DataRec
deriving Repr, DecidableEq

/-- One enumerated metadata file, as seen by the assembly loop: the outcome
of `EurLexMetaFile(f)` and, when needed, the outcome of
`EurLexDataFile(meta_doc.main_pub, ...)`. -/
structure SrcFile where
  metaRes : Except String MState
  bodyRes : Except String (Option DataRec)

/-- One iteration of the assembly loop of `EurLexDataset.__init__`.  The
loop body has no exception handler, so a failing construction propagates
through the monad. -/
def datasetStep (acc : List ELItem) (f : SrcFile) : Except String (List ELItem) := do
  let m ← f.metaRes
  if is_dec m then do
    let b ← f.bodyRes
    let item : ELItem := { meta := m, main_doc := b }
    if is_cfsp item.meta then Except.ok (acc ++ [item]) else Except.ok acc
  else Except.ok acc

/-- The assembly loop of `EurLexDataset.__init__` over the enumerated
metadata files. -/
def datasetInit (files : List SrcFile) : Except String (List ELItem) :=
  files.foldlM datasetStep []

/-! Shared concrete records used by witnesses and counterexamples. -/

/-- A metadata record with every optional field absent. -/
def emptyMeta : MState := initMState "doc.xml"

/-- A metadata record that passes both classifiers. -/
def cfspDecMeta : MState :=
  { emptyMeta with
    file_path := "good.doc.xml"
    file_name := "good.doc.xml"
    legval := some "DEC", com := some "CFSP", coll := some "L" }

/-- A constructed main body document. -/
def goodBody : DataRec := { file_path := "body.xml", text := "t", dates := ["2011/04/13"] }

/-- A metadata state whose path stack has a sub-publication parent under
the element on top. -/
def subPubMeta : MState :=
  { emptyMeta with path := ["PAPER", "DOC.SUB.PUB", "LEGAL.VALUE"], legval := some "OLD" }

/-- A metadata state whose path stack has the main-publication parent under
the element on top. -/
def mainPubMeta : MState :=
  { emptyMeta with path := ["PAPER", "DOC.MAIN.PUB", "LEGAL.VALUE"] }

/-! Helper lemmas -/

theorem isPrefixOf_exists (l1 l2 : List Char) :
    l1.isPrefixOf l2 = true ↔ ∃ t, l2 = l1 ++ t := by
  induction l1 generalizing l2 with
  | nil => simp [List.isPrefixOf]
  | cons a as ih =>
    cases l2 with
    | nil => simp [List.isPrefixOf]
    | cons b bs =>
      constructor
      · intro h
        simp only [List.isPrefixOf, Bool.and_eq_true, beq_iff_eq] at h
        obtain ⟨rfl, hrest⟩ := h
        rcases (ih bs).mp hrest with ⟨t, rfl⟩
        exact ⟨t, rfl⟩
      · rintro ⟨t, ht⟩
        rcases List.cons_eq_cons.mp ht with ⟨rfl, rfl⟩
        simp [List.isPrefixOf, (ih _).mpr ⟨t, rfl⟩]

theorem containsSubL_iff (nd hay : List Char) :
    containsSubL nd hay = true ↔ ∃ pre post, hay = pre ++ nd ++ post := by
  induction hay with
  | nil =>
    constructor
    · intro h
      have hnd : nd = [] := by
        cases nd with
        | nil => rfl
        | cons x xs => simp [containsSubL] at h
      exact ⟨[], [], by simp [hnd]⟩
    · rintro ⟨pre, post, h⟩
      have h1 := List.append_eq_nil.mp (List.append_eq_nil.mp h.symm).1
      simp [containsSubL, h1.2]
  | cons c t ih =>
    constructor
    · intro h
      have h0 : nd.isPrefixOf (c :: t) = true ∨ containsSubL nd t = true := by
        simpa [containsSubL, Bool.or_eq_true] using h
      rcases h0 with h1 | h1
      · rcases (isPrefixOf_exists nd (c :: t)).mp h1 with ⟨t1, ht1⟩
        exact ⟨[], t1, by simp [ht1]⟩
      · rcases ih.mp h1 with ⟨pre, post, hpp⟩
        exact ⟨c :: pre, post, by simp [hpp]⟩
    · rintro ⟨pre, post, h⟩
      cases pre with
      | nil =>
        have : nd.isPrefixOf (c :: t) = true :=
          (isPrefixOf_exists nd (c :: t)).mpr ⟨post, by simpa using h⟩
        simp [containsSubL, this]
      | cons p ps =>
        have h2 : t = ps ++ nd ++ post := by simpa using (List.cons_eq_cons.mp (by simpa using h)).2
        have : containsSubL nd t = true := ih.mpr ⟨ps, post, h2⟩
        simp [containsSubL, this]

theorem traverseDates_length (ds : List String) (l : List String)
    (h : traverseDates ds = some l) : l.length = ds.length := by
  induction ds generalizing l with
  | nil => simp [traverseDates] at h; simp [← h]
  | cons d t ih =>
    simp only [traverseDates] at h
    cases hn : normDate d with
    | none => rw [hn] at h; cases h
    | some s =>
      rw [hn] at h
      cases ht : traverseDates t with
      | none => rw [ht] at h; cases h
      | some r =>
        rw [ht] at h
        cases h
        simp [ih r ht]

theorem traverseDates_none_of_mem (ds : List String) (d : String)
    (hm : d ∈ ds) (hn : normDate d = none) : traverseDates ds = none := by
  induction ds with
  | nil => cases hm
  | cons a t ih =>
    rcases List.mem_cons.mp hm with rfl | hmt
    · simp [traverseDates, hn]
    · simp [traverseDates, ih hmt]

theorem traverseDates_some_of_all (ds : List String)
    (h : ∀ d, d ∈ ds → (normDate d).isSome = true) :
    traverseDates ds = some (ds.map fun d => (normDate d).getD "None") := by
  induction ds with
  | nil => simp [traverseDates]
  | cons a t ih =>
    have ha := h a (List.mem_cons_self a t)
    rcases Option.isSome_iff_exists.mp ha with ⟨v, hv⟩
    have ht := ih (fun d hd => h d (List.mem_cons_of_mem a hd))
    simp [traverseDates, hv, ht]

theorem mem_flattenVals (gd : List (String × List String)) (k : String)
    (l : List String) (name : String) (hkl : (k, l) ∈ gd) (hn : name ∈ l) :
    name ∈ flattenVals gd := by
  induction gd with
  | nil => cases hkl
  | cons p t ih =>
    rcases List.mem_cons.mp hkl with rfl | hmt
    · simp [flattenVals, List.mem_append]
      exact Or.inl hn
    · cases p with
      | mk k1 v1 => simp [flattenVals, List.mem_append, ih hmt]

theorem lookup_locCall_not_mem (L : List String) (txt : List Char) (name : String)
    (h : name ∉ L) :
    List.lookup name (L.filterMap (fun n =>
      if 0 < geoCount n txt then some (n, geoCount n txt) else none)) = none := by
  induction L with
  | nil => rfl
  | cons a t ih =>
    have hna : name ≠ a := fun he => h (he ▸ List.mem_cons_self a t)
    have hnt : name ∉ t := fun he => h (List.mem_cons_of_mem a he)
    by_cases hc : 0 < geoCount a txt
    · simp only [List.filterMap_cons]
      rw [if_pos hc]
      simp [List.lookup, beq_eq_false_iff_ne.mpr hna, ih hnt]
    · simp only [List.filterMap_cons]
      rw [if_neg hc]
      exact ih hnt

theorem lookup_locCall_mem (L : List String) (txt : List Char) (name : String)
    (hnd : L.Nodup) (hm : name ∈ L) :
    List.lookup name (L.filterMap (fun n =>
      if 0 < geoCount n txt then some (n, geoCount n txt) else none)) =
      if 0 < geoCount name txt then some (geoCount name txt) else none := by
  induction L with
  | nil => cases hm
  | cons a t ih =>
    rcases List.nodup_cons.mp hnd with ⟨hat, hndt⟩
    by_cases hna : name = a
    · subst hna
      by_cases hc : 0 < geoCount name txt
      · simp only [List.filterMap_cons]
        rw [if_pos hc]
        simp [List.lookup, hc]
      · simp only [List.filterMap_cons]
        rw [if_neg hc]
        simp [hc, lookup_locCall_not_mem t txt name hat]
    · have hmt : name ∈ t := by
        rcases List.mem_cons.mp hm with h1 | h1
        · exact absurd h1 hna
        · exact h1
      by_cases hc : 0 < geoCount a txt
      · simp only [List.filterMap_cons]
        rw [if_pos hc]
        simp [List.lookup, beq_eq_false_iff_ne.mpr hna, ih hndt hmt]
      · simp only [List.filterMap_cons]
        rw [if_neg hc]
        exact ih hndt hmt

/-! Claim theorems -/

/-- C1 counterexample: a root with one malformed metadata document and one
valid, classifying document does not yield a one-item corpus: the
construction failure propagates out of the assembly loop of
`EurLexDataset.__init__` (which has no per-file exception handler) and the
whole run fails. -/
theorem c1_counterexample :
    datasetInit [⟨Except.error "ParseError", Except.ok none⟩,
                 ⟨Except.ok cfspDecMeta, Except.ok (some goodBody)⟩] =
      Except.error "ParseError" := rfl

/-- C1 (amended): a failure to construct the `MetadataRecord` of an
enumerated metadata file aborts the entire run: the error propagates, and
no later file is processed.  A root containing only the valid, classifying
document yields the one-item corpus. -/
theorem c1_abort_on_meta_failure :
    (∀ (e : String) (b : Except String (Option DataRec)) (rest : List SrcFile),
      datasetInit ({ metaRes := Except.error e, bodyRes := b } :: rest) = Except.error e) ∧
    datasetInit [⟨Except.ok cfspDecMeta, Except.ok (some goodBody)⟩] =
      Except.ok [{ meta := cfspDecMeta, main_doc := some goodBody }] :=
  ⟨fun _ _ _ => rfl, rfl⟩

/-- C2 counterexample: a body document from which no date strings at all
are extracted completes construction with the empty dates list, not the
sentinel list containing the string None. -/
theorem c2_counterexample :
    eurLexDataFileInit (fun _ => some "x") "a.xml" "t" [] =
      Except.ok (some { file_path := "a.xml", text := "t", dates := [] }) := rfl

/-- C2 (amended): for every body document that yields at least one date
string, the dates list is non-empty after construction; the sentinel covers
only the normalization-failure case, while a document with zero extracted
dates keeps the empty list. -/
theorem c2_dates_nonempty (ds : List String) (h : ds ≠ []) :
    0 < (normalizeDates ds).length := by
  unfold normalizeDates
  cases ht : traverseDates ds with
  | none => simp
  | some l =>
    have hl := traverseDates_length ds l ht
    simp [Option.getD, hl]
    exact List.length_pos.mpr h

/-- C2 amended-claim witness: concrete non-empty date lists give a
non-empty result. -/
theorem c2_dates_nonempty_witness :
    0 < (normalizeDates ["badformat"]).length ∧ 0 < (normalizeDates ["20110413"]).length :=
  ⟨c2_dates_nonempty ["badformat"] (by simp),
   c2_dates_nonempty ["20110413"] (by simp)⟩

/-- C3 counterexample: constructing a body document on a non-existent path
does not raise: `EurLexDataFile.__init__` catches the `OSError` of the base
class, prints a message, and returns the object with no data attributes. -/
theorem c3_counterexample :
    eurLexDataFileInit (fun _ => none) "missing.xml" "t" ["20110413"] = Except.ok none := rfl

/-- C3 (amended): loading a resource whose file path does not exist is
fatal for a metadata document (`EurLexMetaFile`) and for the gazetteer table
(`read_geo_table`), which raise a descriptive missing-resource error; the
body-document constructor (`EurLexDataFile`) instead swallows the error and
returns an object with no data attributes. -/
theorem c3_missing_resource (fs : String → Option String) (p : String) (h : fs p = none) :
    (∀ evs, eurLexMetaFileInit fs p evs =
      Except.error ("File " ++ p ++ " does not exist.")) ∧
    (∀ text dates, eurLexDataFileInit fs p text dates = Except.ok none) ∧
    (∀ sep comment, read_geo_table fs p sep comment =
      Except.error ("File " ++ p ++ " does not exist.")) := by
  have h1 : eurLexFileInit fs p = Except.error ("File " ++ p ++ " does not exist.") := by
    simp [eurLexFileInit, h]
  refine ⟨fun evs => ?_, fun text dates => ?_, fun sep comment => ?_⟩
  · unfold eurLexMetaFileInit
    rw [h1]
    rfl
  · unfold eurLexDataFileInit
    rw [h1]
  · unfold read_geo_table
    rw [h]

/-- C3 amended-claim witness: on an empty file system the metadata loader
and the gazetteer loader fail while the body-document loader returns an
object with no data attributes. -/
theorem c3_missing_resource_witness :
    eurLexMetaFileInit (fun _ => none) "m.doc.xml" (Except.ok []) =
      Except.error "File m.doc.xml does not exist." ∧
    eurLexDataFileInit (fun _ => none) "b.xml" "t" [] = Except.ok none ∧
    read_geo_table (fun _ => none) "geo_info.csv" "," "#" =
      Except.error "File geo_info.csv does not exist." := by
  have h := c3_missing_resource (fun _ => none) "m.doc.xml" rfl
  have h2 := c3_missing_resource (fun _ => none) "b.xml" rfl
  have h3 := c3_missing_resource (fun _ => none) "geo_info.csv" rfl
  exact ⟨h.1 (Except.ok []), h2.2.1 "t" [], h3.2.2 "," "#"⟩

/-- C4: `is_dec` returns true exactly when the legal-value code is present
and belongs to the fixed closed set of seven decision-type codes, and
returns false when the legal-value code is absent. -/
theorem c4_is_dec (m : MState) :
    (is_dec m = true ↔ ∃ c, m.legval = some c ∧
      c ∈ (["DEC", "DEC.EEA", "DEC_IMPL", "DECIMP", "DEC_DEL", "DECDEL", "DECIMPL"] : List String)) ∧
    (m.legval = none → is_dec m = false) := by
  constructor
  · cases hv : m.legval with
    | none => simp [is_dec, hv]
    | some v => simp [is_dec, hv, decCodes]
  · intro h
    simp [is_dec, h]

/-- C4 witness: the absent legal value gives false, the code DEC gives
true. -/
theorem c4_is_dec_witness : is_dec emptyMeta = false ∧ is_dec cfspDecMeta = true :=
  ⟨(c4_is_dec emptyMeta).2 rfl,
   (c4_is_dec cfspDecMeta).1.mpr ⟨"DEC", rfl, by simp⟩⟩

theorem except_bind_ok {α β ε : Type} (a : α) (f : α → Except ε β) :
    (Except.ok a >>= f : Except ε β) = f a := rfl

/-- C5: `is_cfsp` is true exactly when at least one of its four
sub-conditions holds: (a) the metadata file name is in the fixed manual
allow-list of seven names, (b) the lowercased title contains the substring
cfsp, (c) the classification code equals CFSP, (d) some author identifier
is in the fixed set of three issuing-body codes; it is false exactly when
all four fail. -/
theorem c5_is_cfsp (m : MState) :
    is_cfsp m = true ↔
      (m.file_name ∈ manuallySelected ∨
       (∃ pre post, (lowerStr m.title).data = pre ++ "cfsp".data ++ post) ∨
       m.com = some "CFSP" ∨
       (∃ a, a ∈ m.authors ∧ a ∈ cfspAuthors)) := by
  have h2 := containsSubL_iff "cfsp".data (lowerStr m.title).data
  simp only [is_cfsp, Bool.or_eq_true, h2, beq_iff_eq, List.any_eq_true,
    List.contains, List.elem_eq_mem, decide_eq_true_eq, or_assoc]

/-- C6: during metadata parsing, an end event for a LEGAL.VALUE element
records its text as the legal-value code exactly when the second-to-last
entry of the current path stack (the immediate parent of the element) is
the main-publication marker DOC.MAIN.PUB; under any other parent, such as
the sub-publication marker, the legal-value code is left unchanged. -/
theorem c6_legval_main_pub (st : MState) (t : Option String) (fa : Option String)
    (p : String) (h : pyAt2 st.path = Except.ok p) :
    metaStep st (MetaEvent.exit "LEGAL.VALUE" t fa) =
      Except.ok { st with legval := if p = "DOC.MAIN.PUB" then t else st.legval,
                          path := st.path.dropLast } := by
  by_cases hp : p = "DOC.MAIN.PUB"
  · subst hp
    simp [metaStep, h, except_bind_ok]
  · simp [metaStep, h, except_bind_ok, beq_eq_false_iff_ne.mpr hp, if_neg hp]

/-- C6 witness: under a sub-publication parent the stored legal value is
kept, under the main-publication parent it is overwritten by the element
text. -/
theorem c6_legval_main_pub_witness :
    metaStep subPubMeta (MetaEvent.exit "LEGAL.VALUE" (some "NEW") none) =
      Except.ok { subPubMeta with path := ["PAPER", "DOC.SUB.PUB"], legval := some "OLD" } ∧
    metaStep mainPubMeta (MetaEvent.exit "LEGAL.VALUE" (some "NEW") none) =
      Except.ok { mainPubMeta with path := ["PAPER", "DOC.MAIN.PUB"], legval := some "NEW" } := by
  constructor
  · rw [c6_legval_main_pub subPubMeta (some "NEW") none "DOC.SUB.PUB" rfl]
    rfl
  · rw [c6_legval_main_pub mainPubMeta (some "NEW") none "DOC.MAIN.PUB" rfl]
    rfl

/-- C7: date normalization maps the strict compact numeric form 20110413
to 2011/04/13; if any date of the list fails to normalize, the whole list
is atomically replaced by the single-element sentinel; and when every date
normalizes, the result is the fully normalized list, so no partially
normalized list is ever kept. -/
theorem c7_date_normalization :
    normDate "20110413" = some "2011/04/13" ∧
    (∀ ds d, d ∈ ds → normDate d = none → normalizeDates ds = ["None"]) ∧
    (∀ ds, (∀ d, d ∈ ds → (normDate d).isSome = true) →
      normalizeDates ds = ds.map fun d => (normDate d).getD "None") := by
  refine ⟨rfl, fun ds d hm hn => ?_, fun ds h => ?_⟩
  · simp [normalizeDates, traverseDates_none_of_mem ds d hm hn]
  · simp [normalizeDates, traverseDates_some_of_all ds h]

/-- C7 witness: a list with one bad date collapses to the sentinel, a list
of one good date is normalized elementwise. -/
theorem c7_date_normalization_witness :
    normalizeDates ["20110413", "badformat"] = ["None"] ∧
    normalizeDates ["20110413"] = ["2011/04/13"] := by
  constructor
  · exact c7_date_normalization.2.1 ["20110413", "badformat"] "badformat" (by simp) rfl
  · rw [c7_date_normalization.2.2 ["20110413"] (by intro d hd; simp at hd; subst hd; rfl)]
    rfl

/-- C8: gazetteer matching is whole-word and case-insensitive and the
curated disambiguation rule suppresses compound-phrase false positives:
for the entity Sudan, the text the Sudanese crisis yields no match, and
the text South Sudan and Sudan yields exactly one match (the occurrence
preceded by the qualifier South being excluded), both for the raw match
count and through the location-parser call. -/
theorem c8_sudan_matching :
    geoCount "Sudan" ("the Sudanese crisis".data) = 0 ∧
    geoCount "Sudan" ("South Sudan and Sudan".data) = 1 ∧
    geoCount "Sudan" ("discussed sudan policy".data) = 1 ∧
    locCall [("Sudan", ["Sudan"])] ("the Sudanese crisis".data) = [] ∧
    locCall [("Sudan", ["Sudan"])] ("South Sudan and Sudan".data) = [("Sudan", 1)] :=
  ⟨rfl, rfl, rfl, rfl, rfl⟩

/-- C9: a geographic name appearing under two distinct aggregation keys of
the lookup table is compiled into exactly one matcher (it occurs exactly
once in the deduplicated name list) and counted exactly once per
occurrence; the output mapping is keyed by the plain name string, and the
name appears in the output exactly when it has at least one match, with
the exact count of non-overlapping matches as its value. -/
theorem c9_dedup_names (gd : List (String × List String)) (txt : List Char)
    (name k1 k2 : String) (l1 l2 : List String)
    (h1 : (k1, l1) ∈ gd) (h2 : (k2, l2) ∈ gd) (hk : k1 ≠ k2)
    (hn1 : name ∈ l1) (hn2 : name ∈ l2) :
    (flattenVals gd).dedup.count name = 1 ∧
    List.lookup name (locCall gd txt) =
      (if 0 < geoCount name txt then some (geoCount name txt) else none) := by
  have hm : name ∈ flattenVals gd := mem_flattenVals gd k1 l1 name h1 hn1
  have hmd : name ∈ (flattenVals gd).dedup := List.mem_dedup.mpr hm
  have hnd : ((flattenVals gd).dedup).Nodup := List.nodup_dedup (flattenVals gd)
  exact ⟨List.count_eq_one_of_mem hnd hmd,
    lookup_locCall_mem (flattenVals gd).dedup txt name hnd hmd⟩

/-- C9 witness: the name Metropolis listed under the two keys K1 and K2 is
compiled once and counted once in a text with one occurrence. -/
theorem c9_dedup_names_witness :
    (flattenVals [("K1", ["Metropolis"]), ("K2", ["Metropolis"])]).dedup.count "Metropolis" = 1 ∧
    List.lookup "Metropolis"
      (locCall [("K1", ["Metropolis"]), ("K2", ["Metropolis"])] ("near Metropolis today".data)) =
      some 1 := by
  have h := c9_dedup_names [("K1", ["Metropolis"]), ("K2", ["Metropolis"])]
    ("near Metropolis today".data) "Metropolis" "K1" "K2" ["Metropolis"] ["Metropolis"]
    (by simp) (by simp) (by decide) (by simp) (by simp)
  refine ⟨h.1, ?_⟩
  rw [h.2]
  rfl

/-- C10: rendering the one-line summary of a metadata record whose
collection code is absent fails with a TypeError rather than producing a
line with an absent-marker; only the legal-value code is substituted with
the string None when absent, while the collection code is joined as is. -/
theorem c10_meta_str (m : MState) :
    (m.coll = none → metaStr m = Except.error "TypeError") ∧
    (∀ c, m.coll = some c →
      metaStr m = Except.ok (m.file_path ++ "," ++ String.intercalate "_" m.authors ++ "," ++
        c ++ "," ++ (match m.legval with | some v => v | none => "None"))) := by
  constructor
  · intro h
    simp [metaStr, h]
  · intro c hc
    simp only [metaStr, hc]
    rfl

/-- C10 witness: an absent collection code fails, a present one renders
the line with None substituted only for the legal value. -/
theorem c10_meta_str_witness :
    metaStr { emptyMeta with coll := none } = Except.error "TypeError" ∧
    metaStr { emptyMeta with coll := some "L", authors := ["A", "B"], legval := none } =
      Except.ok "doc.xml,A_B,L,None" := by
  constructor
  · exact (c10_meta_str { emptyMeta with coll := none }).1 rfl
  · rw [(c10_meta_str { emptyMeta with coll := some "L", authors := ["A", "B"], legval := none }).2 "L" rfl]
    rfl
